import Mathlib

/-!
# Verification of the loan lifecycle and repayment engine

Shallow embedding of the loan contract (src/contracts/loan/src/lib.rs) of
Project_Cygnus, a Soroban smart contract managing collateralized
peer-to-peer loans.

Modelling conventions:
* `Address` values are opaque identifiers, modelled as `Nat`.
* Rust `i128` values are modelled as `Int`, `u64` and `u32` as `Nat`
  (the claims under verification concern only the non-overflowing range;
  Rust `i128` division is truncation toward zero, modelled by `Int.tdiv`,
  and integer division by zero is a panic, modelled by an explicit check).
* Contract storage is a `Store`: the loan counter plus an association
  list from loan identifier to `LoanState`, mirroring the keyed instance
  storage (`DataKey.Loan i`, `DataKey.LoanCount`).
* Each public entry point is a pure function from the pre-store (and the
  ledger timestamp where the code reads it) to `Except Error` of the
  post-store, the returned value, and the list of token transfers the
  call performs, in call order.  A Soroban panic aborts and rolls back
  the whole invocation, so a panic is an `Error` result that leaves the
  caller's store untouched; the panic messages map to errors as follows:
  "Loan not found" to `LoanNotFound`, "Loan is not active" to
  `LoanNotActive`, "Only borrower can make repayments" and "Only lender
  can liquidate" to `Unauthorized`, "Invalid repayment amount" to
  `InvalidRepayment`, "No payments are overdue" to `NoDefault`, and the
  arithmetic trap of `i128` division by zero to `DivByZeroPanic`.
  `InvalidTerms` is the error the specification names for term
  validation; it is declared here so that statements can mention it,
  but no code path of the source produces it.
-/

/-! ## Data model, operations and fixtures -/

/-- Loan status (enum LoanStatus). -/
inductive LoanStatus where
  | Active
  | Repaid
  | Defaulted
  | Liquidated
deriving DecidableEq, Repr

/-- Payment schedule entry (struct Payment): due_date is u64, amount is i128. -/
structure Payment where
  due_date : Nat
  amount : Int
  paid : Bool
deriving DecidableEq, Repr

/-- Loan state (struct LoanState). -/
structure LoanState where
  lender : Nat
  borrower : Nat
  principal : Int
  interest_rate : Nat
  duration : Nat
  collateral_amount : Int
  collateral_asset : Nat
  repayment_schedule : List Payment
  status : LoanStatus
  created_at : Nat
  total_repaid : Int
deriving DecidableEq, Repr

/-- Loan terms for creation (struct LoanTerms). -/
structure LoanTerms where
  principal : Int
  interest_rate : Nat
  duration : Nat
  collateral_amount : Int
  collateral_asset : Nat
  installments : Nat
deriving DecidableEq, Repr

/-- Failure outcomes of an invocation (panics/traps of the contract code,
named after the specification's error vocabulary). -/
inductive Error where
  | LoanNotFound
  | LoanNotActive
  | Unauthorized
  | InvalidRepayment
  | NoDefault
  | InvalidTerms
  | DivByZeroPanic
deriving DecidableEq, Repr

/-- One token transfer performed through the token client:
`transfer(asset, source, dest, amount)`. -/
structure Transfer where
  asset : Nat
  source : Nat
  dest : Nat
  amount : Int
deriving DecidableEq, Repr

/-- Contract instance storage: the LoanCount counter entry and the
Loan(i) entries. -/
structure Store where
  loanCount : Nat
  loans : List (Nat × LoanState)
deriving DecidableEq, Repr

/-- Look up the Loan(i) storage entry. -/
def getLoan : List (Nat × LoanState) → Nat → Option LoanState
  | [], _ => none
  | (k, v) :: rest, i => if k = i then some v else getLoan rest i

/-- Write the Loan(i) storage entry. -/
def setLoan : List (Nat × LoanState) → Nat → LoanState → List (Nat × LoanState)
  | [], i, v => [(i, v)]
  | (k, w) :: rest, i, v =>
      if k = i then (i, v) :: rest else (k, w) :: setLoan rest i v

/-- The repayment-matching loop of make_repayment (lib.rs lines 152-164):
scan in index order; at the first entry with paid == false and
amount >= entry.amount, mark it paid and return the updated schedule
together with that entry's required amount; if the scan finds no such
entry, return none (the caller then panics "Invalid repayment amount"). -/
def applyRepayment (amount : Int) : List Payment → Option (List Payment × Int)
  | [] => none
  | p :: ps =>
      if p.paid = false ∧ p.amount ≤ amount then
        some ({ p with paid := true } :: ps, p.amount)
      else
        match applyRepayment amount ps with
        | none => none
        | some (ps2, a) => some (p :: ps2, a)

/-- The overdue-scan loop shared by liquidate_collateral (lines 213-219)
and is_overdue (lines 271-276): is there an entry with paid == false and
current_time > due_date. -/
def hasOverdue (current_time : Nat) (l : List Payment) : Bool :=
  l.any fun p => !p.paid && decide (p.due_date < current_time)

/-- The schedule-building loop of create_loan (lib.rs lines 84-95):
payment_amount is the i128 division total_amount / installments
(truncation), payment_interval the u64 division duration / installments,
and entry i is due at current_time + payment_interval * (i + 1). -/
def buildSchedule (current_time : Nat) (terms : LoanTerms) : List Payment :=
  let total_amount :=
    terms.principal + Int.tdiv (terms.principal * (terms.interest_rate : Int)) 10000
  let payment_amount := Int.tdiv total_amount (terms.installments : Int)
  let payment_interval := terms.duration / terms.installments
  (List.range terms.installments).map fun i =>
    { due_date := current_time + payment_interval * (i + 1)
      amount := payment_amount
      paid := false : Payment }

/-- The LoanState record that create_loan persists (lib.rs lines 97-109). -/
def createdLoan (current_time lender borrower : Nat) (terms : LoanTerms) : LoanState :=
  { lender := lender
    borrower := borrower
    principal := terms.principal
    interest_rate := terms.interest_rate
    duration := terms.duration
    collateral_amount := terms.collateral_amount
    collateral_asset := terms.collateral_asset
    repayment_schedule := buildSchedule current_time terms
    status := .Active
    created_at := current_time
    total_repaid := 0 }

/-- pub fn create_loan (lib.rs lines 71-127).  `self` is the contract's
own address (env.current_contract_address()), `current_time` the ledger
timestamp.  The identifier allocation of get_next_loan_id (lines
283-288) is inlined: the returned identifier is the old counter value
and the counter becomes its successor.  The division
total_amount / installments is an i128 division: with installments == 0
it traps, which aborts and rolls back the invocation (so the counter
write of get_next_loan_id is also undone).  The code performs no
validation of the submitted terms. -/
def create_loan (self : Nat) (store : Store) (current_time : Nat)
    (lender borrower : Nat) (terms : LoanTerms) :
    Except Error (Store × Nat × List Transfer) :=
  let loan_id := store.loanCount
  if terms.installments = 0 then
    .error .DivByZeroPanic
  else
    let loan := createdLoan current_time lender borrower terms
    .ok ({ loanCount := store.loanCount + 1,
           loans := setLoan store.loans loan_id loan },
         loan_id,
         [{ asset := terms.collateral_asset, source := borrower, dest := self,
            amount := terms.collateral_amount },
          { asset := terms.collateral_asset, source := lender, dest := borrower,
            amount := terms.principal }])

/-- pub fn make_repayment (lib.rs lines 130-189). -/
def make_repayment (self : Nat) (store : Store) (loan_id : Nat)
    (borrower : Nat) (amount : Int) :
    Except Error (Store × LoanStatus × List Transfer) :=
  match getLoan store.loans loan_id with
  | none => .error .LoanNotFound
  | some loan =>
    if loan.status ≠ LoanStatus.Active then .error .LoanNotActive
    else if borrower ≠ loan.borrower then .error .Unauthorized
    else
      match applyRepayment amount loan.repayment_schedule with
      | none => .error .InvalidRepayment
      | some (sched, payment_amount) =>
        let loan1 := { loan with repayment_schedule := sched,
                                 total_repaid := loan.total_repaid + payment_amount }
        let t1 : Transfer :=
          { asset := loan.collateral_asset, source := borrower, dest := loan.lender,
            amount := amount }
        let total_due :=
          loan.principal + Int.tdiv (loan.principal * (loan.interest_rate : Int)) 10000
        if total_due ≤ loan1.total_repaid then
          let loan2 := { loan1 with status := LoanStatus.Repaid }
          .ok ({ store with loans := setLoan store.loans loan_id loan2 },
               LoanStatus.Repaid,
               [t1,
                { asset := loan.collateral_asset, source := self, dest := loan.borrower,
                  amount := loan.collateral_amount }])
        else
          .ok ({ store with loans := setLoan store.loans loan_id loan1 },
               LoanStatus.Active,
               [t1])

/-- pub fn liquidate_collateral (lib.rs lines 192-237). -/
def liquidate_collateral (self : Nat) (store : Store) (current_time : Nat)
    (loan_id : Nat) (lender : Nat) :
    Except Error (Store × LoanStatus × List Transfer) :=
  match getLoan store.loans loan_id with
  | none => .error .LoanNotFound
  | some loan =>
    if loan.lender ≠ lender then .error .Unauthorized
    else if loan.status ≠ LoanStatus.Active then .error .LoanNotActive
    else if hasOverdue current_time loan.repayment_schedule = false then
      .error .NoDefault
    else
      let loan2 := { loan with status := LoanStatus.Liquidated }
      .ok ({ store with loans := setLoan store.loans loan_id loan2 },
           LoanStatus.Liquidated,
           [{ asset := loan.collateral_asset, source := self, dest := lender,
              amount := loan.collateral_amount }])

/-- pub fn is_overdue (lib.rs lines 259-279): read-only query, no store
output because the code performs no write. -/
def is_overdue (store : Store) (loan_id : Nat) (current_time : Nat) :
    Except Error Bool :=
  match getLoan store.loans loan_id with
  | none => .error .LoanNotFound
  | some loan =>
    if loan.status ≠ LoanStatus.Active then .ok false
    else .ok (hasOverdue current_time loan.repayment_schedule)

/-- Spec-side description of the repayment-matching policy: the index of
the first schedule entry with paid == false whose required amount is at
most the submitted amount. -/
def firstPayableIdx (amount : Int) : List Payment → Option Nat
  | [] => none
  | p :: ps =>
      if p.paid = false ∧ p.amount ≤ amount then some 0
      else (firstPayableIdx amount ps).map (· + 1)

/-- Spec-side description: mark the entry at the given index paid,
leaving every other entry unchanged. -/
def markPaidAt : List Payment → Nat → List Payment
  | [], _ => []
  | p :: ps, 0 => { p with paid := true } :: ps
  | p :: ps, n + 1 => p :: markPaidAt ps n

/-- Number of schedule entries already marked paid. -/
def countPaid : List Payment → Nat
  | [] => 0
  | p :: ps => (if p.paid then 1 else 0) + countPaid ps

/-- total_due as the code computes it from loan terms
(lib.rs lines 84 and 175). -/
def totalDue (terms : LoanTerms) : Int :=
  terms.principal + Int.tdiv (terms.principal * (terms.interest_rate : Int)) 10000

/-- per-installment amount as the code computes it (lib.rs line 85). -/
def perInstallment (terms : LoanTerms) : Int :=
  Int.tdiv (totalDue terms) (terms.installments : Int)

/-- Run a sequence of make_repayment invocations against one loan
identifier; a failed invocation aborts without touching the store and
the sequence continues with the next invocation. -/
def runRepayments (self : Nat) (store : Store) (loan_id : Nat) :
    List (Nat × Int) → Store
  | [] => store
  | (caller, amt) :: rest =>
      match make_repayment self store loan_id caller amt with
      | .error _ => runRepayments self store loan_id rest
      | .ok (store2, _, _) => runRepayments self store2 loan_id rest

/-- One successful state-mutating invocation of the contract. -/
inductive Step : Store → Store → Prop where
  | create (self t lender borrower : Nat) (terms : LoanTerms)
      (s s' : Store) (id : Nat) (ts : List Transfer) :
      create_loan self s t lender borrower terms = .ok (s', id, ts) → Step s s'
  | repay (self loan_id borrower : Nat) (amt : Int)
      (s s' : Store) (st : LoanStatus) (ts : List Transfer) :
      make_repayment self s loan_id borrower amt = .ok (s', st, ts) → Step s s'
  | liquidate (self t loan_id lender : Nat)
      (s s' : Store) (st : LoanStatus) (ts : List Transfer) :
      liquidate_collateral self s t loan_id lender = .ok (s', st, ts) → Step s s'

/-- Stores reachable from the fresh contract instance (counter absent,
read as 0; no loan entries) by successful invocations.  Failed
invocations roll back and do not change the store. -/
inductive Reach : Store → Prop where
  | init : Reach ⟨0, []⟩
  | step {s s' : Store} : Reach s → Step s s' → Reach s'

/-- The loan record after the matching loop marks one installment paid:
the updated schedule and the accumulated total_repaid (lib.rs lines
158-160). -/
def loanMarked (loan : LoanState) (sched : List Payment) (a : Int) : LoanState :=
  { loan with repayment_schedule := sched, total_repaid := loan.total_repaid + a }

/-- The loan record persisted on full repayment (lib.rs line 177). -/
def loanRepaid (loan : LoanState) (sched : List Payment) (a : Int) : LoanState :=
  { loanMarked loan sched a with status := LoanStatus.Repaid }

/-- The loan record persisted by liquidation (lib.rs line 233). -/
def loanLiquidated (loan : LoanState) : LoanState :=
  { loan with status := LoanStatus.Liquidated }

/-- The transfer of the submitted repayment amount to the lender
(lib.rs lines 171-172). -/
def repayTransfer (loan : LoanState) (borrower : Nat) (amount : Int) : Transfer :=
  { asset := loan.collateral_asset, source := borrower, dest := loan.lender, amount := amount }

/-- The collateral release to the borrower on full repayment
(lib.rs lines 179-183). -/
def releaseTransfer (self : Nat) (loan : LoanState) : Transfer :=
  { asset := loan.collateral_asset, source := self, dest := loan.borrower, amount := loan.collateral_amount }

/-- The collateral seizure to the lender on liquidation
(lib.rs lines 226-231). -/
def seizeTransfer (self : Nat) (loan : LoanState) (lender : Nat) : Transfer :=
  { asset := loan.collateral_asset, source := self, dest := lender, amount := loan.collateral_amount }

/-- The collateral lock performed by create_loan (lib.rs lines 112-117). -/
def lockTransfer (terms : LoanTerms) (borrower self : Nat) : Transfer :=
  { asset := terms.collateral_asset, source := borrower, dest := self, amount := terms.collateral_amount }

/-- The principal disbursement performed by create_loan
(lib.rs lines 120-121). -/
def disburseTransfer (terms : LoanTerms) (lender borrower : Nat) : Transfer :=
  { asset := terms.collateral_asset, source := lender, dest := borrower, amount := terms.principal }

/-- The loan terms of the repository's own tests: principal 100000,
5% interest, 30-day duration, 3 installments, asset identifier 7. -/
def exTerms : LoanTerms :=
  { principal := 100000, interest_rate := 500, duration := 2592000,
    collateral_amount := 150000, collateral_asset := 7, installments := 3 }

/-- The loan those terms create at time 0 with lender 1, borrower 2. -/
def exLoan : LoanState :=
  { lender := 1, borrower := 2, principal := 100000, interest_rate := 500,
    duration := 2592000, collateral_amount := 150000, collateral_asset := 7,
    repayment_schedule := [⟨864000, 35000, false⟩, ⟨1728000, 35000, false⟩, ⟨2592000, 35000, false⟩],
    status := .Active, created_at := 0, total_repaid := 0 }

/-- A store holding that freshly created loan under identifier 0. -/
def exStore : Store := ⟨1, [(0, exLoan)]⟩

/-- The same loan after its first two installments have been repaid. -/
def exLoanTwoPaid : LoanState :=
  { exLoan with
      repayment_schedule := [⟨864000, 35000, true⟩, ⟨1728000, 35000, true⟩, ⟨2592000, 35000, false⟩],
      total_repaid := 70000 }

/-- A store holding the two-installments-paid loan under identifier 0. -/
def exStoreTwoPaid : Store := ⟨1, [(0, exLoanTwoPaid)]⟩

/-- The example loan in terminal status Repaid. -/
def exRepaidLoan : LoanState := { exLoan with status := .Repaid }

/-- A store holding the Repaid loan under identifier 0. -/
def exStoreRepaid : Store := ⟨1, [(0, exRepaidLoan)]⟩

/-- The test terms with installments set to 0. -/
def zeroInstTerms : LoanTerms := { exTerms with installments := 0 }

/-- Terms whose principal, duration and collateral_amount are all
non-positive (zero), with one installment. -/
def nonPositiveTerms : LoanTerms :=
  { principal := 0, interest_rate := 0, duration := 0, collateral_amount := 0,
    collateral_asset := 7, installments := 1 }

/-- The invariant maintained by make_repayment on a loan created from
the given terms: still Active, the interest inputs unchanged, the
schedule length fixed, every installment amount equal to
per_installment, and total_repaid equal to per_installment times the
number of paid entries. -/
def RepayUniformInv (terms : LoanTerms) (loan : LoanState) : Prop :=
  loan.status = LoanStatus.Active ∧
  loan.principal = terms.principal ∧
  loan.interest_rate = terms.interest_rate ∧
  loan.repayment_schedule.length = terms.installments ∧
  (∀ p ∈ loan.repayment_schedule, p.amount = perInstallment terms) ∧
  loan.total_repaid = perInstallment terms * (countPaid loan.repayment_schedule : Int)

/-- Terms whose total_due (105001) is not divisible by the 3
installments: per_installment is 35000, and 3 * 35000 < 105001. -/
def c9Terms : LoanTerms :=
  { principal := 100001, interest_rate := 500, duration := 2592000,
    collateral_amount := 150000, collateral_asset := 7, installments := 3 }

/-- The loan of c9Terms after all three installments have been repaid:
total_repaid is 105000, one short of total_due, and the status is still
Active. -/
def c9FinalLoan : LoanState :=
  { lender := 1, borrower := 2, principal := 100001, interest_rate := 500,
    duration := 2592000, collateral_amount := 150000, collateral_asset := 7,
    repayment_schedule := [⟨864000, 35000, true⟩, ⟨1728000, 35000, true⟩, ⟨2592000, 35000, true⟩],
    status := .Active, created_at := 0, total_repaid := 105000 }

/-! ## Lemmas and claim theorems -/

theorem getLoan_setLoan_self (l : List (Nat × LoanState)) (i : Nat) (v : LoanState) :
    getLoan (setLoan l i v) i = some v := by
  induction l with
  | nil => simp [setLoan, getLoan]
  | cons kv rest ih =>
      obtain ⟨k, w⟩ := kv
      by_cases h : k = i
      · simp [setLoan, getLoan, h]
      · simp [setLoan, getLoan, h, ih]

theorem getLoan_setLoan_ne (l : List (Nat × LoanState)) (i j : Nat) (v : LoanState)
    (h : j ≠ i) : getLoan (setLoan l i v) j = getLoan l j := by
  induction l with
  | nil => simp [setLoan, getLoan, Ne.symm h]
  | cons kv rest ih =>
      obtain ⟨k, w⟩ := kv
      by_cases hk : k = i
      · subst hk
        simp [setLoan, getLoan, Ne.symm h]
      · simp [setLoan, getLoan, hk, ih]

theorem tdiv_nonneg_eq_fdiv {a b : Int} (ha : 0 ≤ a) (hb : 0 ≤ b) :
    a.tdiv b = a.fdiv b := by
  rw [Int.tdiv_eq_ediv ha hb, Int.fdiv_eq_ediv _ hb]

theorem applyRepayment_none_iff (amount : Int) (l : List Payment) :
    applyRepayment amount l = none ↔ firstPayableIdx amount l = none := by
  induction l with
  | nil => simp [applyRepayment, firstPayableIdx]
  | cons p ps ih =>
      by_cases h : p.paid = false ∧ p.amount ≤ amount
      · simp [applyRepayment, firstPayableIdx, h]
      · rw [applyRepayment, firstPayableIdx, if_neg h, if_neg h]
        cases hrec : applyRepayment amount ps with
        | none => simp [ih.mp hrec]
        | some pr =>
            have : firstPayableIdx amount ps ≠ none := by
              intro hn
              rw [ih.mpr hn] at hrec
              exact Option.noConfusion hrec
            cases hfi : firstPayableIdx amount ps with
            | none => exact absurd hfi this
            | some i => simp

theorem applyRepayment_some (amount : Int) (l : List Payment) (i : Nat) (p : Payment)
    (hidx : firstPayableIdx amount l = some i) (hp : l[i]? = some p) :
    applyRepayment amount l = some (markPaidAt l i, p.amount) := by
  induction l generalizing i with
  | nil => simp [firstPayableIdx] at hidx
  | cons q qs ih =>
      by_cases h : q.paid = false ∧ q.amount ≤ amount
      · rw [firstPayableIdx, if_pos h] at hidx
        obtain rfl : (0 : Nat) = i := Option.some.inj hidx
        simp only [List.getElem?_cons_zero] at hp
        obtain rfl : q = p := Option.some.inj hp
        rw [applyRepayment, if_pos h]
        rfl
      · rw [firstPayableIdx, if_neg h] at hidx
        obtain ⟨i', hfi, rfl⟩ := Option.map_eq_some'.mp hidx
        simp only [List.getElem?_cons_succ] at hp
        rw [applyRepayment, if_neg h, ih i' hfi hp]
        rfl

theorem hasOverdue_iff (t : Nat) (l : List Payment) :
    hasOverdue t l = true ↔ ∃ p ∈ l, p.paid = false ∧ t > p.due_date := by
  simp [hasOverdue, List.any_eq_true]

theorem countPaid_le_length (l : List Payment) : countPaid l ≤ l.length := by
  induction l with
  | nil => simp [countPaid]
  | cons p ps ih =>
      rw [countPaid]
      by_cases h : p.paid <;> simp [h] <;> omega

theorem applyRepayment_uniform (c amount : Int) (l l2 : List Payment) (a : Int)
    (huni : ∀ p ∈ l, p.amount = c)
    (h : applyRepayment amount l = some (l2, a)) :
    a = c ∧ l2.length = l.length ∧ (∀ p ∈ l2, p.amount = c) ∧
      countPaid l2 = countPaid l + 1 := by
  induction l generalizing l2 with
  | nil => simp [applyRepayment] at h
  | cons p ps ih =>
      by_cases hc : p.paid = false ∧ p.amount ≤ amount
      · rw [applyRepayment, if_pos hc] at h
        simp only [Option.some.injEq, Prod.mk.injEq] at h
        obtain ⟨h1, h2⟩ := h
        subst h1
        subst h2
        refine ⟨huni p (by simp), by simp, ?_, ?_⟩
        · intro q hq
          rcases List.mem_cons.mp hq with hq | hq
          · rw [hq]
            exact huni p (List.mem_cons_self p ps)
          · exact huni q (List.mem_cons_of_mem p hq)
        · rw [countPaid, countPaid]
          simp [hc.1]
          omega
      · rw [applyRepayment, if_neg hc] at h
        cases hrec : applyRepayment amount ps with
        | none => rw [hrec] at h; exact Option.noConfusion h
        | some pr =>
            obtain ⟨ps2, a'⟩ := pr
            rw [hrec] at h
            simp only [Option.some.injEq, Prod.mk.injEq] at h
            obtain ⟨h1, h2⟩ := h
            subst h1
            subst h2
            obtain ⟨ha, hlen, huni2, hcount⟩ :=
              ih ps2 (fun q hq => huni q (List.mem_cons_of_mem p hq)) hrec
            refine ⟨ha, by simp [hlen], ?_, ?_⟩
            · intro q hq
              rcases List.mem_cons.mp hq with hq | hq
              · rw [hq]
                exact huni p (List.mem_cons_self p ps)
              · exact huni2 q hq
            · rw [countPaid, countPaid, hcount]
              omega

theorem buildSchedule_length (t : Nat) (terms : LoanTerms) :
    (buildSchedule t terms).length = terms.installments := by
  simp [buildSchedule]

theorem buildSchedule_getElem (t : Nat) (terms : LoanTerms) (i : Nat)
    (hi : i < terms.installments) :
    (buildSchedule t terms)[i]? =
      some { due_date := t + (terms.duration / terms.installments) * (i + 1),
             amount := perInstallment terms,
             paid := false } := by
  simp [buildSchedule, perInstallment, totalDue, hi]

theorem create_loan_eq (self : Nat) (store : Store) (t lender borrower : Nat)
    (terms : LoanTerms) (h : terms.installments ≠ 0) :
    create_loan self store t lender borrower terms =
      .ok ({ loanCount := store.loanCount + 1,
             loans := setLoan store.loans store.loanCount (createdLoan t lender borrower terms) },
           store.loanCount,
           [lockTransfer terms borrower self, disburseTransfer terms lender borrower]) := by
  simp [create_loan, h, lockTransfer, disburseTransfer]

theorem create_loan_ok_cases (self : Nat) (store : Store) (t lender borrower : Nat)
    (terms : LoanTerms) (store' : Store) (id : Nat) (ts : List Transfer)
    (h : create_loan self store t lender borrower terms = .ok (store', id, ts)) :
    terms.installments ≠ 0 ∧ id = store.loanCount ∧
      store'.loanCount = store.loanCount + 1 ∧
      store'.loans = setLoan store.loans store.loanCount (createdLoan t lender borrower terms) ∧
      ts = [lockTransfer terms borrower self, disburseTransfer terms lender borrower] := by
  by_cases h0 : terms.installments = 0
  · simp [create_loan, h0] at h
  · rw [create_loan_eq self store t lender borrower terms h0] at h
    simp only [Except.ok.injEq, Prod.mk.injEq] at h
    obtain ⟨h1, h2, h3⟩ := h
    refine ⟨h0, h2.symm, ?_, ?_, h3.symm⟩
    · rw [← h1]
    · rw [← h1]

theorem make_repayment_eq_of_apply
    (self : Nat) (store : Store) (loan_id borrower : Nat) (amount : Int)
    (loan : LoanState) (sched : List Payment) (a : Int)
    (hget : getLoan store.loans loan_id = some loan)
    (hact : loan.status = LoanStatus.Active)
    (hb : borrower = loan.borrower)
    (happly : applyRepayment amount loan.repayment_schedule = some (sched, a)) :
    make_repayment self store loan_id borrower amount =
      if loan.principal + Int.tdiv (loan.principal * (loan.interest_rate : Int)) 10000 ≤
           loan.total_repaid + a then
        .ok ({ store with loans := setLoan store.loans loan_id (loanRepaid loan sched a) },
             LoanStatus.Repaid,
             [repayTransfer loan borrower amount, releaseTransfer self loan])
      else
        .ok ({ store with loans := setLoan store.loans loan_id (loanMarked loan sched a) },
             LoanStatus.Active,
             [repayTransfer loan borrower amount]) := by
  simp only [make_repayment, hget, hact, hb, happly, loanRepaid, loanMarked,
    repayTransfer, releaseTransfer]
  simp

theorem make_repayment_ok_cases
    (self : Nat) (store : Store) (loan_id borrower : Nat) (amount : Int)
    (store' : Store) (st : LoanStatus) (ts : List Transfer)
    (h : make_repayment self store loan_id borrower amount = .ok (store', st, ts)) :
    ∃ loan sched a,
      getLoan store.loans loan_id = some loan ∧
      loan.status = LoanStatus.Active ∧
      borrower = loan.borrower ∧
      applyRepayment amount loan.repayment_schedule = some (sched, a) ∧
      store'.loanCount = store.loanCount ∧
      ((loan.principal + Int.tdiv (loan.principal * (loan.interest_rate : Int)) 10000 ≤
          loan.total_repaid + a ∧
        st = LoanStatus.Repaid ∧
        store'.loans = setLoan store.loans loan_id (loanRepaid loan sched a) ∧
        ts = [repayTransfer loan borrower amount, releaseTransfer self loan]) ∨
       (loan.total_repaid + a <
          loan.principal + Int.tdiv (loan.principal * (loan.interest_rate : Int)) 10000 ∧
        st = LoanStatus.Active ∧
        store'.loans = setLoan store.loans loan_id (loanMarked loan sched a) ∧
        ts = [repayTransfer loan borrower amount])) := by
  simp only [make_repayment] at h
  cases hget : getLoan store.loans loan_id with
  | none => rw [hget] at h; exact Except.noConfusion h
  | some loan =>
      rw [hget] at h
      simp only at h
      by_cases hact : loan.status = LoanStatus.Active
      case neg => rw [if_pos (by simp [hact])] at h; exact Except.noConfusion h
      rw [if_neg (by simp [hact])] at h
      by_cases hb : borrower = loan.borrower
      case neg => rw [if_pos (by simp [hb])] at h; exact Except.noConfusion h
      rw [if_neg (by simp [hb])] at h
      cases happly : applyRepayment amount loan.repayment_schedule with
      | none => rw [happly] at h; exact Except.noConfusion h
      | some pr =>
          obtain ⟨sched, a⟩ := pr
          rw [happly] at h
          simp only at h
          refine ⟨loan, sched, a, rfl, hact, hb, happly, ?_⟩
          by_cases hdue : loan.principal +
              Int.tdiv (loan.principal * (loan.interest_rate : Int)) 10000 ≤
              loan.total_repaid + a
          · rw [if_pos hdue] at h
            simp only [Except.ok.injEq, Prod.mk.injEq] at h
            obtain ⟨h1, h2, h3⟩ := h
            subst h1
            exact ⟨rfl, Or.inl ⟨hdue, h2.symm, rfl, h3.symm⟩⟩
          · rw [if_neg hdue] at h
            simp only [Except.ok.injEq, Prod.mk.injEq] at h
            obtain ⟨h1, h2, h3⟩ := h
            subst h1
            exact ⟨rfl, Or.inr ⟨by omega, h2.symm, rfl, h3.symm⟩⟩

theorem liquidate_eq_of_overdue
    (self : Nat) (store : Store) (t loan_id lender : Nat) (loan : LoanState)
    (hget : getLoan store.loans loan_id = some loan)
    (hl : loan.lender = lender)
    (hact : loan.status = LoanStatus.Active)
    (hover : hasOverdue t loan.repayment_schedule = true) :
    liquidate_collateral self store t loan_id lender =
      .ok ({ store with loans := setLoan store.loans loan_id (loanLiquidated loan) },
           LoanStatus.Liquidated,
           [seizeTransfer self loan lender]) := by
  simp only [liquidate_collateral, hget, hl, hact, hover, loanLiquidated, seizeTransfer]
  simp

theorem liquidate_ok_cases
    (self : Nat) (store : Store) (t loan_id lender : Nat)
    (store' : Store) (st : LoanStatus) (ts : List Transfer)
    (h : liquidate_collateral self store t loan_id lender = .ok (store', st, ts)) :
    ∃ loan,
      getLoan store.loans loan_id = some loan ∧
      loan.lender = lender ∧
      loan.status = LoanStatus.Active ∧
      hasOverdue t loan.repayment_schedule = true ∧
      st = LoanStatus.Liquidated ∧
      store'.loanCount = store.loanCount ∧
      store'.loans = setLoan store.loans loan_id (loanLiquidated loan) ∧
      ts = [seizeTransfer self loan lender] := by
  simp only [liquidate_collateral] at h
  cases hget : getLoan store.loans loan_id with
  | none => rw [hget] at h; exact Except.noConfusion h
  | some loan =>
      rw [hget] at h
      simp only at h
      by_cases hl : loan.lender = lender
      case neg => rw [if_pos (by simp [hl])] at h; exact Except.noConfusion h
      rw [if_neg (by simp [hl])] at h
      by_cases hact : loan.status = LoanStatus.Active
      case neg => rw [if_pos (by simp [hact])] at h; exact Except.noConfusion h
      rw [if_neg (by simp [hact])] at h
      by_cases hover : hasOverdue t loan.repayment_schedule = true
      case neg =>
        rw [if_pos (by simp at hover ⊢; exact hover)] at h
        exact Except.noConfusion h
      rw [if_neg (by simp [hover])] at h
      simp only [Except.ok.injEq, Prod.mk.injEq] at h
      obtain ⟨h1, h2, h3⟩ := h
      subst h1
      exact ⟨loan, rfl, hl, hact, hover, h2.symm, rfl, rfl, h3.symm⟩

theorem code_total_due_eq_fdiv (p : Int) (r : Nat) (hp : 0 ≤ p) :
    p + Int.tdiv (p * (r : Int)) 10000 = p + Int.fdiv (p * (r : Int)) 10000 := by
  rw [tdiv_nonneg_eq_fdiv (mul_nonneg hp (Int.natCast_nonneg r)) (by norm_num)]

theorem totalDue_nonneg (terms : LoanTerms) (hp : 0 ≤ terms.principal) :
    0 ≤ totalDue terms := by
  have h1 : 0 ≤ terms.principal * (terms.interest_rate : Int) :=
    mul_nonneg hp (Int.natCast_nonneg _)
  have h2 : (0 : Int) ≤ 10000 := by norm_num
  rw [totalDue, Int.tdiv_eq_ediv h1 h2]
  exact add_nonneg hp (Int.ediv_nonneg h1 h2)

theorem perInstallment_nonneg (terms : LoanTerms) (hp : 0 ≤ terms.principal) :
    0 ≤ perInstallment terms := by
  rw [perInstallment,
    Int.tdiv_eq_ediv (totalDue_nonneg terms hp) (Int.natCast_nonneg _)]
  exact Int.ediv_nonneg (totalDue_nonneg terms hp) (Int.natCast_nonneg _)

theorem perInstallment_eq_fdiv (terms : LoanTerms) (hp : 0 ≤ terms.principal) :
    perInstallment terms =
      Int.fdiv (terms.principal + Int.fdiv (terms.principal * (terms.interest_rate : Int)) 10000)
        (terms.installments : Int) := by
  have h1 : terms.principal + Int.fdiv (terms.principal * (terms.interest_rate : Int)) 10000 =
      totalDue terms := by
    rw [totalDue, code_total_due_eq_fdiv terms.principal terms.interest_rate hp]
  rw [h1, perInstallment,
    tdiv_nonneg_eq_fdiv (totalDue_nonneg terms hp) (Int.natCast_nonneg _)]

/-- C1: For every Active loan and every positive submitted amount,
make_repayment scans the repayment schedule in index order, marks paid
the first entry with paid == false whose required amount is at most the
submitted amount, and adds that entry's required amount (not the
submitted amount) to total_repaid; if no unpaid entry has required
amount at most the submitted amount, the call fails with
InvalidRepayment and, the whole invocation aborting, leaves total_repaid
and every paid flag unchanged (a failed call yields no post-store). -/
theorem make_repayment_first_match
    (self : Nat) (store : Store) (loan_id borrower : Nat) (amount : Int)
    (loan : LoanState)
    (hget : getLoan store.loans loan_id = some loan)
    (hact : loan.status = LoanStatus.Active)
    (hb : borrower = loan.borrower)
    (hpos : 0 < amount) :
    (firstPayableIdx amount loan.repayment_schedule = none →
      make_repayment self store loan_id borrower amount = .error .InvalidRepayment) ∧
    (∀ i p, firstPayableIdx amount loan.repayment_schedule = some i →
      loan.repayment_schedule[i]? = some p →
      ∃ store' st ts loan',
        make_repayment self store loan_id borrower amount = .ok (store', st, ts) ∧
        getLoan store'.loans loan_id = some loan' ∧
        loan'.repayment_schedule = markPaidAt loan.repayment_schedule i ∧
        loan'.total_repaid = loan.total_repaid + p.amount) := by
  constructor
  · intro hnone
    have happ : applyRepayment amount loan.repayment_schedule = none :=
      (applyRepayment_none_iff amount _).mpr hnone
    simp only [make_repayment, hget, hact, hb, happ]
    simp
  · intro i p hidx hp
    have happ := applyRepayment_some amount _ i p hidx hp
    rw [make_repayment_eq_of_apply self store loan_id borrower amount loan _ _
      hget hact hb happ]
    by_cases hdue : loan.principal +
        Int.tdiv (loan.principal * (loan.interest_rate : Int)) 10000 ≤
        loan.total_repaid + p.amount
    · rw [if_pos hdue]
      exact ⟨_, _, _, loanRepaid loan (markPaidAt loan.repayment_schedule i) p.amount,
        rfl, by rw [getLoan_setLoan_self], rfl, rfl⟩
    · rw [if_neg hdue]
      exact ⟨_, _, _, loanMarked loan (markPaidAt loan.repayment_schedule i) p.amount,
        rfl, by rw [getLoan_setLoan_self], rfl, rfl⟩

theorem make_repayment_first_match_witness :
    make_repayment 99 exStore 0 2 20000 = .error .InvalidRepayment :=
  (make_repayment_first_match 99 exStore 0 2 20000 exLoan rfl rfl rfl
    (by decide)).1 rfl

/-- C2: For every make_repayment call that marks an installment paid:
after the marking, total_due is recomputed as
principal + floor(principal * interest_rate / 10000), and if
total_repaid is at least total_due the status is set to Repaid and the
full collateral_amount is transferred from the engine to the borrower
in that same call; if total_repaid is below total_due the status
remains Active and the collateral is not moved (the only transfer is
the repayment itself). -/
theorem make_repayment_completion_check
    (self : Nat) (store : Store) (loan_id borrower : Nat) (amount : Int)
    (loan : LoanState) (sched : List Payment) (a : Int)
    (hget : getLoan store.loans loan_id = some loan)
    (hact : loan.status = LoanStatus.Active)
    (hb : borrower = loan.borrower)
    (happly : applyRepayment amount loan.repayment_schedule = some (sched, a))
    (hp : 0 ≤ loan.principal) :
    (loan.principal + Int.fdiv (loan.principal * (loan.interest_rate : Int)) 10000 ≤
        loan.total_repaid + a →
      make_repayment self store loan_id borrower amount =
        .ok ({ store with loans := setLoan store.loans loan_id (loanRepaid loan sched a) },
             LoanStatus.Repaid,
             [repayTransfer loan borrower amount, releaseTransfer self loan])) ∧
    (loan.total_repaid + a <
        loan.principal + Int.fdiv (loan.principal * (loan.interest_rate : Int)) 10000 →
      make_repayment self store loan_id borrower amount =
        .ok ({ store with loans := setLoan store.loans loan_id (loanMarked loan sched a) },
             LoanStatus.Active,
             [repayTransfer loan borrower amount])) := by
  have hfd := code_total_due_eq_fdiv loan.principal loan.interest_rate hp
  rw [make_repayment_eq_of_apply self store loan_id borrower amount loan sched a
    hget hact hb happly]
  constructor
  · intro hge
    rw [if_pos (by rw [hfd]; exact hge)]
  · intro hlt
    rw [if_neg (by rw [hfd]; omega)]

theorem make_repayment_completion_check_witness :
    make_repayment 99 exStoreTwoPaid 0 2 35000 =
      .ok ({ exStoreTwoPaid with
               loans := setLoan exStoreTwoPaid.loans 0
                 (loanRepaid exLoanTwoPaid
                   [⟨864000, 35000, true⟩, ⟨1728000, 35000, true⟩, ⟨2592000, 35000, true⟩]
                   35000) },
           LoanStatus.Repaid,
           [repayTransfer exLoanTwoPaid 2 35000, releaseTransfer 99 exLoanTwoPaid]) :=
  (make_repayment_completion_check 99 exStoreTwoPaid 0 2 35000 exLoanTwoPaid
    [⟨864000, 35000, true⟩, ⟨1728000, 35000, true⟩, ⟨2592000, 35000, true⟩] 35000
    rfl rfl rfl rfl (by decide)).1 (by decide)

/-- C3: For every Active loan, liquidate_collateral called by the
stored lender fails with NoDefault when no installment has
paid == false with current_time > due_date; when at least one such
overdue unpaid installment exists, it transfers the full
collateral_amount to the lender in one single transfer and sets status
to Liquidated. -/
theorem liquidate_collateral_default_gate
    (self : Nat) (store : Store) (t loan_id lender : Nat) (loan : LoanState)
    (hget : getLoan store.loans loan_id = some loan)
    (hl : lender = loan.lender)
    (hact : loan.status = LoanStatus.Active) :
    ((¬ ∃ p ∈ loan.repayment_schedule, p.paid = false ∧ t > p.due_date) →
      liquidate_collateral self store t loan_id lender = .error .NoDefault) ∧
    ((∃ p ∈ loan.repayment_schedule, p.paid = false ∧ t > p.due_date) →
      liquidate_collateral self store t loan_id lender =
        .ok ({ store with loans := setLoan store.loans loan_id (loanLiquidated loan) },
             LoanStatus.Liquidated,
             [seizeTransfer self loan lender])) := by
  constructor
  · intro hno
    have hov : hasOverdue t loan.repayment_schedule = false := by
      rw [← Bool.not_eq_true, hasOverdue_iff]
      exact hno
    simp only [liquidate_collateral, hget, hl.symm, hact, hov]
    simp
  · intro hyes
    exact liquidate_eq_of_overdue self store t loan_id lender loan hget hl.symm hact
      ((hasOverdue_iff t loan.repayment_schedule).mpr hyes)

theorem liquidate_collateral_default_gate_witness :
    liquidate_collateral 99 exStore 864001 0 1 =
      .ok ({ exStore with loans := setLoan exStore.loans 0 (loanLiquidated exLoan) },
           LoanStatus.Liquidated,
           [seizeTransfer 99 exLoan 1]) :=
  (liquidate_collateral_default_gate 99 exStore 864001 0 1 exLoan rfl rfl rfl).2
    (by decide)

/-- C4: For all loan terms with positive principal, nonnegative interest
rate (its type), positive duration and installments = n > 0, the
schedule built at creation has exactly n entries; entry i (0-based) has
due_date = created_at + floor(duration/n) * (i+1),
amount = floor(total_due/n) with
total_due = principal + floor(principal * interest_rate / 10000), and
paid = false; due dates strictly increase with the index when
floor(duration/n) > 0. -/
theorem create_loan_schedule_correct
    (self : Nat) (store : Store) (t lender borrower : Nat) (terms : LoanTerms)
    (hp : 0 < terms.principal) (hn : 0 < terms.installments)
    (hd : 0 < terms.duration) :
    ∃ store' ts,
      create_loan self store t lender borrower terms = .ok (store', store.loanCount, ts) ∧
      ∃ loan, getLoan store'.loans store.loanCount = some loan ∧
        loan.repayment_schedule.length = terms.installments ∧
        (∀ i, i < terms.installments →
          loan.repayment_schedule[i]? =
            some { due_date := t + (terms.duration / terms.installments) * (i + 1),
                   amount := Int.fdiv
                     (terms.principal +
                       Int.fdiv (terms.principal * (terms.interest_rate : Int)) 10000)
                     (terms.installments : Int),
                   paid := false }) ∧
        (0 < terms.duration / terms.installments →
          ∀ i j pi pj, i < j → j < terms.installments →
            loan.repayment_schedule[i]? = some pi →
            loan.repayment_schedule[j]? = some pj →
            pi.due_date < pj.due_date) := by
  refine ⟨_, _, create_loan_eq self store t lender borrower terms (by omega), ?_⟩
  refine ⟨createdLoan t lender borrower terms, getLoan_setLoan_self _ _ _, ?_, ?_, ?_⟩
  · show (buildSchedule t terms).length = terms.installments
    exact buildSchedule_length t terms
  · intro i hi
    show (buildSchedule t terms)[i]? = _
    rw [buildSchedule_getElem t terms i hi,
      perInstallment_eq_fdiv terms (le_of_lt hp)]
  · intro hq i j pi pj hij hj hpi hpj
    have hi : i < terms.installments := lt_trans hij hj
    rw [show (createdLoan t lender borrower terms).repayment_schedule =
        buildSchedule t terms from rfl] at hpi hpj
    rw [buildSchedule_getElem t terms i hi] at hpi
    rw [buildSchedule_getElem t terms j hj] at hpj
    obtain rfl := Option.some.inj hpi
    obtain rfl := Option.some.inj hpj
    show t + (terms.duration / terms.installments) * (i + 1) <
      t + (terms.duration / terms.installments) * (j + 1)
    have hmono : (terms.duration / terms.installments) * (i + 1) <
        (terms.duration / terms.installments) * (j + 1) :=
      (Nat.mul_lt_mul_left hq).mpr (by omega)
    omega

theorem create_loan_schedule_correct_witness :
    0 < exTerms.principal ∧ 0 < exTerms.installments ∧ 0 < exTerms.duration ∧
    ∃ store' ts,
      create_loan 99 ⟨0, []⟩ 0 1 2 exTerms = .ok (store', 0, ts) ∧
      ∃ loan, getLoan store'.loans 0 = some loan ∧
        loan.repayment_schedule.length = exTerms.installments ∧
        (∀ i, i < exTerms.installments →
          loan.repayment_schedule[i]? =
            some { due_date := 0 + (exTerms.duration / exTerms.installments) * (i + 1),
                   amount := Int.fdiv
                     (exTerms.principal +
                       Int.fdiv (exTerms.principal * (exTerms.interest_rate : Int)) 10000)
                     (exTerms.installments : Int),
                   paid := false }) ∧
        (0 < exTerms.duration / exTerms.installments →
          ∀ i j pi pj, i < j → j < exTerms.installments →
            loan.repayment_schedule[i]? = some pi →
            loan.repayment_schedule[j]? = some pj →
            pi.due_date < pj.due_date) :=
  ⟨by decide, by decide, by decide,
    create_loan_schedule_correct 99 ⟨0, []⟩ 0 1 2 exTerms (by decide) (by decide) (by decide)⟩

/-- C5 (the code diverges from this claim): create_loan called with
installments == 0 does NOT fail with InvalidTerms; it aborts on the
arithmetic fault of the i128 division total_amount / installments by
zero (no InvalidTerms check exists anywhere in create_loan).  The
counter is left unchanged only because the trap aborts the whole
invocation, rolling back the counter increment get_next_loan_id had
already written.  This theorem evaluates the code at the failing
input. -/
theorem create_loan_zero_installments_traps :
    create_loan 99 ⟨0, []⟩ 0 1 2 zeroInstTerms = .error .DivByZeroPanic ∧
    Error.DivByZeroPanic ≠ Error.InvalidTerms :=
  ⟨rfl, by decide⟩

/-- C8 (the code diverges from this claim): create_loan performs no
validation at all, so terms with non-positive principal, duration and
collateral_amount do NOT fail with InvalidTerms: the call succeeds,
persists an Active loan under the next identifier, consumes the
identifier, and emits both transfers. -/
theorem create_loan_accepts_nonpositive_terms :
    create_loan 99 ⟨0, []⟩ 0 1 2 nonPositiveTerms =
      .ok ({ loanCount := 1, loans := [(0, createdLoan 0 1 2 nonPositiveTerms)] }, 0,
           [lockTransfer nonPositiveTerms 2 99, disburseTransfer nonPositiveTerms 1 2]) ∧
    (createdLoan 0 1 2 nonPositiveTerms).status = LoanStatus.Active ∧
    nonPositiveTerms.principal ≤ 0 ∧ nonPositiveTerms.duration = 0 ∧
    nonPositiveTerms.collateral_amount ≤ 0 :=
  ⟨rfl, rfl, by decide, rfl, by decide⟩

theorem reach_no_defaulted {store : Store} (h : Reach store) :
    ∀ id loan, getLoan store.loans id = some loan →
      loan.status ≠ LoanStatus.Defaulted := by
  induction h with
  | init => intro id loan hget; simp [getLoan] at hget
  | step hr hs ih =>
      intro id loan hget
      rename_i s s'
      cases hs with
      | create self t lender borrower terms s s' nid ts hok =>
          obtain ⟨h0, hid, hcnt, hloans, hts⟩ :=
            create_loan_ok_cases self s t lender borrower terms s' nid ts hok
          rw [hloans] at hget
          by_cases hi : id = s.loanCount
          · subst hi
            rw [getLoan_setLoan_self] at hget
            obtain rfl := Option.some.inj hget
            intro hcontra
            exact LoanStatus.noConfusion hcontra
          · rw [getLoan_setLoan_ne _ _ _ _ hi] at hget
            exact ih id loan hget
      | repay self loan_id borrower amt s s' st ts hok =>
          obtain ⟨loan0, sched, a, hget0, hact, hb, happly, hcnt, hbr⟩ :=
            make_repayment_ok_cases self s loan_id borrower amt s' st ts hok
          by_cases hi : id = loan_id
          · subst hi
            rcases hbr with ⟨_, _, hloans, _⟩ | ⟨_, _, hloans, _⟩
            · rw [hloans, getLoan_setLoan_self] at hget
              obtain rfl := Option.some.inj hget
              intro hcontra
              exact LoanStatus.noConfusion hcontra
            · rw [hloans, getLoan_setLoan_self] at hget
              obtain rfl := Option.some.inj hget
              show loan0.status ≠ LoanStatus.Defaulted
              rw [hact]
              intro hcontra
              exact LoanStatus.noConfusion hcontra
          · rcases hbr with ⟨_, _, hloans, _⟩ | ⟨_, _, hloans, _⟩ <;>
              rw [hloans, getLoan_setLoan_ne _ _ _ _ hi] at hget <;>
              exact ih id loan hget
      | liquidate self t loan_id lender s s' st ts hok =>
          obtain ⟨loan0, hget0, hl, hact, hover, hst, hcnt, hloans, hts⟩ :=
            liquidate_ok_cases self s t loan_id lender s' st ts hok
          by_cases hi : id = loan_id
          · subst hi
            rw [hloans, getLoan_setLoan_self] at hget
            obtain rfl := Option.some.inj hget
            intro hcontra
            exact LoanStatus.noConfusion hcontra
          · rw [hloans, getLoan_setLoan_ne _ _ _ _ hi] at hget
            exact ih id loan hget

/-- C6 counterexample: the claim "once a loan is Repaid or Liquidated,
any further make_repayment or liquidate_collateral call fails with
LoanNotActive" is false as stated: on a Repaid loan,
liquidate_collateral invoked by an address (42) that is not the stored
lender (1) fails with Unauthorized, because the code checks the lender
identity before the status. -/
theorem liquidate_on_repaid_not_LoanNotActive :
    exRepaidLoan.status = LoanStatus.Repaid ∧
    liquidate_collateral 99 exStoreRepaid 0 0 42 = .error .Unauthorized ∧
    Error.Unauthorized ≠ Error.LoanNotActive :=
  ⟨rfl, rfl, by decide⟩

/-- C6 (amended): loan status transitions are one-directional.  Every
make_repayment call on a Repaid or Liquidated loan fails with
LoanNotActive, and every liquidate_collateral call by the stored lender
on a Repaid or Liquidated loan fails with LoanNotActive (a
liquidate_collateral call by any other address fails with Unauthorized
before the status check).  Every successful make_repayment starts from
an Active loan and returns Active or Repaid; every successful
liquidate_collateral starts from an Active loan and returns Liquidated;
and no reachable store holds a loan whose status is Defaulted. -/
theorem status_transitions_one_directional
    (self t loan_id caller : Nat) (amt : Int) (store : Store) :
    (∀ loan, getLoan store.loans loan_id = some loan →
      (loan.status = LoanStatus.Repaid ∨ loan.status = LoanStatus.Liquidated) →
      make_repayment self store loan_id caller amt = .error .LoanNotActive) ∧
    (∀ loan, getLoan store.loans loan_id = some loan →
      (loan.status = LoanStatus.Repaid ∨ loan.status = LoanStatus.Liquidated) →
      caller = loan.lender →
      liquidate_collateral self store t loan_id caller = .error .LoanNotActive) ∧
    (∀ store' st ts, make_repayment self store loan_id caller amt = .ok (store', st, ts) →
      ∃ loan, getLoan store.loans loan_id = some loan ∧
        loan.status = LoanStatus.Active ∧
        (st = LoanStatus.Active ∨ st = LoanStatus.Repaid)) ∧
    (∀ store' st ts, liquidate_collateral self store t loan_id caller = .ok (store', st, ts) →
      ∃ loan, getLoan store.loans loan_id = some loan ∧
        loan.status = LoanStatus.Active ∧ st = LoanStatus.Liquidated) ∧
    (Reach store → ∀ id loan, getLoan store.loans id = some loan →
      loan.status ≠ LoanStatus.Defaulted) := by
  refine ⟨?_, ?_, ?_, ?_, fun hr => reach_no_defaulted hr⟩
  · intro loan hget hterm
    rcases hterm with h | h <;> simp [make_repayment, hget, h]
  · intro loan hget hterm hl
    rcases hterm with h | h <;> simp [liquidate_collateral, hget, hl, h]
  · intro store' st ts hok
    obtain ⟨loan, sched, a, hget, hact, hb, happly, hcnt, hbr⟩ :=
      make_repayment_ok_cases self store loan_id caller amt store' st ts hok
    rcases hbr with ⟨_, hst, _, _⟩ | ⟨_, hst, _, _⟩
    · exact ⟨loan, hget, hact, Or.inr hst⟩
    · exact ⟨loan, hget, hact, Or.inl hst⟩
  · intro store' st ts hok
    obtain ⟨loan, hget, hl, hact, hover, hst, _⟩ :=
      liquidate_ok_cases self store t loan_id caller store' st ts hok
    exact ⟨loan, hget, hact, hst⟩

theorem status_transitions_one_directional_witness :
    make_repayment 99 exStoreRepaid 0 2 35000 = .error .LoanNotActive :=
  (status_transitions_one_directional 99 0 0 2 35000 exStoreRepaid).1
    exRepaidLoan rfl (Or.inl rfl)

/-- C7: is_overdue is a pure predicate (modelled as a function that
returns no post-store, because the code performs no write): for an
existing loan it returns true iff status == Active and at least one
installment has paid == false and current_time > due_date (hence always
false for non-Active loans); for an unknown loan identifier it fails
with LoanNotFound rather than returning false. -/
theorem is_overdue_pure_predicate (store : Store) (loan_id t : Nat) :
    (getLoan store.loans loan_id = none →
      is_overdue store loan_id t = .error .LoanNotFound) ∧
    (∀ loan, getLoan store.loans loan_id = some loan →
      ∃ b, is_overdue store loan_id t = .ok b ∧
        (b = true ↔ loan.status = LoanStatus.Active ∧
          ∃ p ∈ loan.repayment_schedule, p.paid = false ∧ t > p.due_date)) := by
  constructor
  · intro hnone
    simp [is_overdue, hnone]
  · intro loan hget
    by_cases hact : loan.status = LoanStatus.Active
    · refine ⟨hasOverdue t loan.repayment_schedule, ?_, ?_⟩
      · simp [is_overdue, hget, hact]
      · rw [hasOverdue_iff]
        exact ⟨fun hex => ⟨hact, hex⟩, fun hand => hand.2⟩
    · refine ⟨false, ?_, ?_⟩
      · simp [is_overdue, hget, hact]
      · simp only [Bool.false_eq_true, false_iff]
        intro hand
        exact hact hand.1

theorem is_overdue_pure_predicate_witness :
    is_overdue ⟨0, []⟩ 0 5 = .error .LoanNotFound :=
  (is_overdue_pure_predicate ⟨0, []⟩ 0 5).1 rfl

theorem buildSchedule_uniform (t : Nat) (terms : LoanTerms) :
    ∀ p ∈ buildSchedule t terms, p.amount = perInstallment terms := by
  intro p hp
  simp only [buildSchedule, List.mem_map, List.mem_range] at hp
  obtain ⟨i, hi, rfl⟩ := hp
  rfl

theorem countPaid_buildSchedule (t : Nat) (terms : LoanTerms) :
    countPaid (buildSchedule t terms) = 0 := by
  simp only [buildSchedule]
  generalize List.range terms.installments = l
  induction l with
  | nil => rfl
  | cons x xs ih => simpa [countPaid] using ih

theorem createdLoan_inv (t lender borrower : Nat) (terms : LoanTerms) :
    RepayUniformInv terms (createdLoan t lender borrower terms) := by
  refine ⟨rfl, rfl, rfl, buildSchedule_length t terms, buildSchedule_uniform t terms, ?_⟩
  show (0 : Int) = perInstallment terms * (countPaid (buildSchedule t terms) : Int)
  rw [countPaid_buildSchedule]
  simp

theorem make_repayment_preserves_inv
    (terms : LoanTerms)
    (hper : 0 ≤ perInstallment terms)
    (hlt : perInstallment terms * (terms.installments : Int) < totalDue terms)
    (self : Nat) (store store' : Store) (loan_id caller : Nat) (amt : Int)
    (st : LoanStatus) (ts : List Transfer)
    (hok : make_repayment self store loan_id caller amt = .ok (store', st, ts))
    (hinv : ∀ loan, getLoan store.loans loan_id = some loan → RepayUniformInv terms loan) :
    ∀ loan', getLoan store'.loans loan_id = some loan' → RepayUniformInv terms loan' := by
  obtain ⟨loan, sched, a, hget, hact, hb, happly, hcnt, hbr⟩ :=
    make_repayment_ok_cases self store loan_id caller amt store' st ts hok
  obtain ⟨hA, hP, hR, hL, hU, hT⟩ := hinv loan hget
  obtain ⟨ha, hlen, huni2, hcount⟩ :=
    applyRepayment_uniform (perInstallment terms) amt loan.repayment_schedule sched a hU happly
  have hbound : (countPaid sched : Int) ≤ (terms.installments : Int) := by
    have h1 : countPaid sched ≤ sched.length := countPaid_le_length sched
    have h2 : sched.length = terms.installments := by rw [hlen, hL]
    exact_mod_cast h2 ▸ h1
  have htot : loan.total_repaid + a = perInstallment terms * (countPaid sched : Int) := by
    rw [hT, ha, hcount]
    push_cast
    ring
  have hlt2 : loan.total_repaid + a < totalDue terms := by
    rw [htot]
    calc perInstallment terms * (countPaid sched : Int)
        ≤ perInstallment terms * (terms.installments : Int) :=
          mul_le_mul_of_nonneg_left hbound hper
      _ < totalDue terms := hlt
  have hdue_eq : loan.principal +
      Int.tdiv (loan.principal * (loan.interest_rate : Int)) 10000 = totalDue terms := by
    rw [hP, hR]
    rfl
  rcases hbr with ⟨hge, _, _, _⟩ | ⟨hlt3, hst, hloans, hts⟩
  · exfalso
    rw [hdue_eq] at hge
    omega
  · intro loan' hget'
    rw [hloans, getLoan_setLoan_self] at hget'
    obtain rfl := Option.some.inj hget'
    refine ⟨hA, hP, hR, ?_, huni2, ?_⟩
    · show sched.length = terms.installments
      rw [hlen, hL]
    · show loan.total_repaid + a = perInstallment terms * (countPaid sched : Int)
      exact htot

theorem runRepayments_preserves_inv
    (terms : LoanTerms)
    (hper : 0 ≤ perInstallment terms)
    (hlt : perInstallment terms * (terms.installments : Int) < totalDue terms)
    (self loan_id : Nat) (calls : List (Nat × Int)) :
    ∀ store,
      (∀ loan, getLoan store.loans loan_id = some loan → RepayUniformInv terms loan) →
      ∀ loan', getLoan (runRepayments self store loan_id calls).loans loan_id = some loan' →
        RepayUniformInv terms loan' := by
  induction calls with
  | nil => intro store hinv; exact hinv
  | cons c rest ih =>
      intro store hinv
      obtain ⟨caller, amt⟩ := c
      rw [runRepayments]
      cases hstep : make_repayment self store loan_id caller amt with
      | error e => exact ih store hinv
      | ok r =>
          obtain ⟨s2, st2, ts2⟩ := r
          exact ih s2 (make_repayment_preserves_inv terms hper hlt self store s2
            loan_id caller amt st2 ts2 hstep hinv)

/-- C9: For every loan whose terms give total_due not divisible by
installments (equivalently, per_installment * installments is strictly
below total_due), the status never becomes Repaid under any sequence of
make_repayment calls: total_repaid accumulates only installment
amounts, whose sum over all installments stays strictly below the
total_due threshold checked for completion. -/
theorem rounding_loss_never_repaid
    (self : Nat) (store store1 : Store) (t lender borrower : Nat)
    (terms : LoanTerms) (id : Nat) (ts : List Transfer)
    (hp : 0 < terms.principal)
    (hcreate : create_loan self store t lender borrower terms = .ok (store1, id, ts))
    (hnd : perInstallment terms * (terms.installments : Int) < totalDue terms)
    (calls : List (Nat × Int)) (loan' : LoanState)
    (hget : getLoan (runRepayments self store1 id calls).loans id = some loan') :
    loan'.status ≠ LoanStatus.Repaid := by
  obtain ⟨h0, hid, hcnt, hloans, hts⟩ :=
    create_loan_ok_cases self store t lender borrower terms store1 id ts hcreate
  subst hid
  have hinv0 : ∀ loan, getLoan store1.loans store.loanCount = some loan →
      RepayUniformInv terms loan := by
    intro loan hl
    rw [hloans, getLoan_setLoan_self] at hl
    obtain rfl := Option.some.inj hl
    exact createdLoan_inv t lender borrower terms
  have hfin := runRepayments_preserves_inv terms
    (perInstallment_nonneg terms (le_of_lt hp)) hnd self store.loanCount calls
    store1 hinv0 loan' hget
  rw [hfin.1]
  intro hcontra
  exact LoanStatus.noConfusion hcontra

theorem rounding_loss_never_repaid_witness :
    c9FinalLoan.status ≠ LoanStatus.Repaid :=
  rounding_loss_never_repaid 99 ⟨0, []⟩
    ⟨1, [(0, createdLoan 0 1 2 c9Terms)]⟩ 0 1 2 c9Terms 0
    [lockTransfer c9Terms 2 99, disburseTransfer c9Terms 1 2]
    (by decide) rfl (by decide)
    [(2, 35000), (2, 35000), (2, 35000)] c9FinalLoan rfl

/-- C10: Every asset transfer the engine performs is denominated in the
loan's collateral_asset token.  In create_loan both the collateral lock
and the principal disbursement to the borrower use
terms.collateral_asset (there is no separate principal-asset field in
LoanTerms), in make_repayment every transfer (the payment to the
lender, and the collateral release when the loan completes) uses the
stored loan's collateral_asset, and so does the seizure transfer of
liquidate_collateral. -/
theorem transfers_use_collateral_asset
    (self : Nat) (store : Store) (t lender borrower loan_id caller : Nat)
    (terms : LoanTerms) (amt : Int) :
    (∀ store' id ts,
      create_loan self store t lender borrower terms = .ok (store', id, ts) →
      ts = [lockTransfer terms borrower self, disburseTransfer terms lender borrower] ∧
      ∀ tr ∈ ts, tr.asset = terms.collateral_asset) ∧
    (∀ store' st ts,
      make_repayment self store loan_id caller amt = .ok (store', st, ts) →
      ∃ loan, getLoan store.loans loan_id = some loan ∧
        ∀ tr ∈ ts, tr.asset = loan.collateral_asset) ∧
    (∀ store' st ts,
      liquidate_collateral self store t loan_id caller = .ok (store', st, ts) →
      ∃ loan, getLoan store.loans loan_id = some loan ∧
        ∀ tr ∈ ts, tr.asset = loan.collateral_asset) := by
  refine ⟨?_, ?_, ?_⟩
  · intro store' id ts hok
    obtain ⟨h0, hid, hcnt, hloans, hts⟩ :=
      create_loan_ok_cases self store t lender borrower terms store' id ts hok
    subst hts
    refine ⟨rfl, ?_⟩
    intro tr htr
    rcases List.mem_cons.mp htr with h | h
    · rw [h]; rfl
    · rcases List.mem_cons.mp h with h2 | h2
      · rw [h2]; rfl
      · simp at h2
  · intro store' st ts hok
    obtain ⟨loan, sched, a, hget, hact, hb, happly, hcnt, hbr⟩ :=
      make_repayment_ok_cases self store loan_id caller amt store' st ts hok
    refine ⟨loan, hget, ?_⟩
    rcases hbr with ⟨_, _, _, hts⟩ | ⟨_, _, _, hts⟩ <;> subst hts <;> intro tr htr
    · rcases List.mem_cons.mp htr with h | h
      · rw [h]; rfl
      · rcases List.mem_cons.mp h with h2 | h2
        · rw [h2]; rfl
        · simp at h2
    · rcases List.mem_cons.mp htr with h | h
      · rw [h]; rfl
      · simp at h
  · intro store' st ts hok
    obtain ⟨loan, hget, hl, hact, hover, hst, hcnt, hloans, hts⟩ :=
      liquidate_ok_cases self store t loan_id caller store' st ts hok
    subst hts
    refine ⟨loan, hget, ?_⟩
    intro tr htr
    rcases List.mem_cons.mp htr with h | h
    · rw [h]; rfl
    · simp at h

theorem transfers_use_collateral_asset_witness :
    (lockTransfer exTerms 2 99).asset = exTerms.collateral_asset :=
  (((transfers_use_collateral_asset 99 ⟨0, []⟩ 0 1 2 0 2 exTerms 0).1
    ⟨1, [(0, createdLoan 0 1 2 exTerms)]⟩ 0
    [lockTransfer exTerms 2 99, disburseTransfer exTerms 1 2] rfl).2)
    (lockTransfer exTerms 2 99) (List.mem_cons_self _ _)
